import Mathlib

/-!
Verification of the vocatalk wearable transcription system.

The system continuously captures audio, transcribes it, shows the text on a
small OLED display, persists it, and opportunistically syncs it over
short- and long-range links, adapting its duty cycle to the battery level.
This file gives a shallow embedding of the orchestration layer and of the
pure helper routines, translated from the C++ sources, and proves the
behavioural properties stated in the design document: the bounded FIFO
transcription history, the current-text invariant, the persistence cycle,
the connectivity sync cycle, the power-mode hysteresis, display line
wrapping, engine selection, and process exit behaviour.
-/

/-- Maximum number of records kept in the in-memory transcription history:
the constant 100 in the eviction test of audioProcessingThread. -/
def MAX_HISTORY : Nat := 100

/-- The shared transcript state: models the globals g_current_transcription
and g_transcription_history, which are read and written only under
g_text_mutex. -/
structure TranscriptState where
  current : String
  history : List String
  deriving Repr, DecidableEq

/-- The state at startup: both globals are default-initialized to empty. -/
def initialState : TranscriptState := { current := "", history := [] }

/-- One append to the shared state, exactly the critical section of
audioProcessingThread: assign g_current_transcription, push_back onto
g_transcription_history, and if the size now exceeds MAX_HISTORY erase the
first (oldest) element. -/
def appendTranscription (s : TranscriptState) (text : String) : TranscriptState :=
  let h := s.history ++ [text]
  { current := text
    history := if MAX_HISTORY < h.length then h.tail else h }

/-- Folding a sequence of appends over a starting state. -/
def appendAll (s : TranscriptState) (texts : List String) : TranscriptState :=
  texts.foldl appendTranscription s

/-- Running a sequence of appends from the startup state. -/
def runAppends (texts : List String) : TranscriptState :=
  appendAll initialState texts

/-- One iteration of audioProcessingThread as it affects the shared state:
the transcription result is appended only when it is non-empty
(the if with text.empty negated); an empty result leaves the state alone. -/
def audioIteration (s : TranscriptState) (text : String) : TranscriptState :=
  if text = "" then s else appendTranscription s text

/-- The speech engines of SpeechToText::Engine. -/
inductive Engine where
  | WHISPER
  | VOSK
  | DEEPSPEECH
  deriving Repr, DecidableEq

/-- Engine selection from the lowercased name, the comparison chain of
SpeechToText::setEngine after std::transform has lowercased the name. -/
def engineOfLowered (name_lower : String) : Engine :=
  if name_lower = "whisper" then Engine.WHISPER
  else if name_lower = "vosk" then Engine.VOSK
  else if name_lower = "deepspeech" then Engine.DEEPSPEECH
  else Engine.WHISPER

/-- The std::transform loop of SpeechToText::setEngine: std::tolower
applied to every character of the name (ASCII case folding, exactly what
Char.toLower does). -/
def toLowerName (engine_name : String) : String :=
  String.mk (engine_name.data.map Char.toLower)

/-- SpeechToText::setEngine: lowercase the engine name and select the
engine; an unknown name logs a message and defaults to WHISPER, the call
never fails. -/
def setEngine (engine_name : String) : Engine :=
  engineOfLowered (toLowerName engine_name)

/-- The possible outcomes of the Whisper collaborator calls inside
SpeechToText::transcribeWithWhisper: a null engine handle, a failed
whisper_full call, or a successful run yielding the segment texts. -/
inductive WhisperOutcome where
  | notInitialized
  | inferenceFailed
  | segments (texts : List String)
  deriving Repr, DecidableEq

/-- SpeechToText::transcribeWithWhisper: failure conditions are reported as
in-band strings; on success the segment texts are concatenated, each
followed by a single space. -/
def transcribeWithWhisper (w : WhisperOutcome) : String :=
  match w with
  | WhisperOutcome.notInitialized => "Whisper model not initialized"
  | WhisperOutcome.inferenceFailed => "Failed to run Whisper inference"
  | WhisperOutcome.segments texts => String.join (texts.map (fun t => t ++ " "))

/-- SpeechToText::transcribe: dispatch on the selected engine; the Vosk and
DeepSpeech arms return fixed in-band placeholder strings. -/
def transcribe (e : Engine) (w : WhisperOutcome) : String :=
  match e with
  | Engine.WHISPER => transcribeWithWhisper w
  | Engine.VOSK => "Vosk transcription not implemented"
  | Engine.DEEPSPEECH => "DeepSpeech transcription not implemented"

/-- The storage-side state of storageThread: the thread-local
last_saved_transcriptions copy and the sequence of texts passed to
storage.saveTranscription so far, in call order. -/
structure StorageState where
  last_saved : List String
  saved : List String
  deriving Repr, DecidableEq

/-- One cycle of the storageThread loop body: snapshot the history under the
mutex; if the snapshot is longer than last_saved, save exactly the entries at
indices from the length of last_saved onward, then replace last_saved by the
snapshot; otherwise do nothing. -/
def storageCycle (history : List String) (st : StorageState) : StorageState :=
  if st.last_saved.length < history.length then
    { last_saved := history
      saved := st.saved ++ history.drop st.last_saved.length }
  else st

/-- An interleaving of shared-state appends (by the capture task) and storage
cycles (by the persistence task); the mutex makes each of the two atomic. -/
inductive SysEvent where
  | append (text : String)
  | persistCycle
  deriving Repr, DecidableEq

/-- Combined state of the shared transcript and the storage task. -/
structure SysState where
  ts : TranscriptState
  store : StorageState
  deriving Repr, DecidableEq

/-- Effect of one event on the combined state. -/
def sysStep (s : SysState) : SysEvent → SysState
  | SysEvent.append t => { s with ts := appendTranscription s.ts t }
  | SysEvent.persistCycle => { s with store := storageCycle s.ts.history s.store }

/-- Running an event interleaving from the startup state. -/
def runSys (events : List SysEvent) : SysState :=
  events.foldl sysStep { ts := initialState, store := { last_saved := [], saved := [] } }

/-- A stress trace for the persistence task: 101 appends in a single
inter-cycle window (one more than MAX_HISTORY), then one storage cycle. -/
def overflowTrace : List SysEvent :=
  (("a" :: List.replicate 100 "b").map SysEvent.append) ++ [SysEvent.persistCycle]

/-- The threshold literal 0.2 of powerManagementThread as the exact rational
one fifth, built by the explicit constructor so that comparisons against it
evaluate by kernel reduction. -/
def LOW_THRESHOLD : ℚ := ⟨1, 5, by decide, by decide⟩

/-- The threshold literal 0.3 of powerManagementThread as the exact rational
three tenths. -/
def HIGH_THRESHOLD : ℚ := ⟨3, 10, by decide, by decide⟩

/-- One cycle of powerManagementThread: below 0.2 switch g_low_power_mode on,
above 0.3 switch it off, otherwise keep the current mode. Battery levels are
modelled as exact rationals standing for the float comparisons with the
literals 0.2 and 0.3. -/
def powerStep (low_power : Bool) (battery_level : ℚ) : Bool :=
  if battery_level < LOW_THRESHOLD then true
  else if battery_level > HIGH_THRESHOLD then false
  else low_power

/-- Folding a trace of battery samples through the power-mode update. -/
def runPower (low0 : Bool) (levels : List ℚ) : Bool :=
  levels.foldl powerStep low0

/-- Modelled from the spec: StorageManager (its source is not under src)
keeps per-record sync state — a stored record is a text together with a
synced flag, cleared at creation and set once uploaded. -/
structure SyncStore where
  records : List (String × Bool)
  deriving Repr, DecidableEq

/-- Modelled from the spec: StorageManager::getUnsyncedTranscriptions (source
not under src) returns the texts of the records not yet marked synced. -/
def getUnsyncedTranscriptions (st : SyncStore) : List String :=
  (st.records.filter (fun r => !r.2)).map Prod.fst

/-- Modelled from the spec: StorageManager::markTranscriptionsAsSynced
(source not under src) takes no arguments, so it marks every stored record
as synced. -/
def markTranscriptionsAsSynced (st : SyncStore) : SyncStore :=
  { records := st.records.map (fun r => (r.1, true)) }

/-- The WiFi half of one connectivityThread cycle, from the thread body:
when wifi.isEnabled() and wifi.isConnected(), call
wifi.backupTranscriptions(storage.getUnsyncedTranscriptions()) and then
unconditionally call storage.markTranscriptionsAsSynced(). The upload
itself is modelled from the spec (WiFiManager is not under src): a link
error may deliver none or only some of the batch, so the delivered argument
gives how many records of the batch actually reached the long-range backup;
the second component of the result is the list of texts delivered. -/
def connectivityWifiCycle (wifi_enabled wifi_connected : Bool) (delivered : Nat)
    (st : SyncStore) : SyncStore × List String :=
  if wifi_enabled && wifi_connected then
    (markTranscriptionsAsSynced st, (getUnsyncedTranscriptions st).take delivered)
  else (st, [])

/-- Whitespace as classified by istream token extraction (std::isspace in the
C locale): space, horizontal tab, newline, vertical tab, form feed, carriage
return. -/
def isCppSpace (c : Char) : Bool :=
  c = ' ' || c = '\t' || c = '\n' || c = '\x0b' || c = '\x0c' || c = '\r'

/-- One left-to-right scan over the characters, accumulating the current
token in reverse: whitespace finishes the pending token (if any), other
characters extend it. -/
def wordsAux : List Char → List Char → List String
  | [], acc => if acc.isEmpty then [] else [String.mk acc.reverse]
  | c :: rest, acc =>
    if isCppSpace c then
      if acc.isEmpty then wordsAux rest []
      else String.mk acc.reverse :: wordsAux rest []
    else wordsAux rest (c :: acc)

/-- The words extracted from the input text by the repeated stream
extractions (iss then word) in Display::wrapText: the maximal runs of
non-whitespace characters, in order. -/
def extractWords (text : String) : List String :=
  wordsAux text.data []

/-- Characters per display line in Display::wrapText (128x64 display,
5x8 font). -/
def chars_per_line : Nat := 21

/-- One step of the word loop in Display::wrapText: start the first line with
the first word; append a word to the current line when it still fits within
chars_per_line counting the joining space; otherwise flush the current line
and start a new one with the word. -/
def wrapStep : List String × String → String → List String × String
  | (lines, current_line), word =>
    if current_line = "" then (lines, word)
    else if current_line.length + word.length + 1 ≤ chars_per_line then
      (lines, current_line ++ " " ++ word)
    else (lines ++ [current_line], word)

/-- The wrapped lines of Display::wrapText before the final 8-line limit:
fold the word loop and flush the last non-empty current line. -/
def wrapLines (text : String) : List String :=
  let p := (extractWords text).foldl wrapStep ([], "")
  if p.2 = "" then p.1 else p.1 ++ [p.2]

/-- Display::wrapText: wrap, then resize down to 8 lines when more were
produced (the overflow lines are discarded). -/
def wrapText (text : String) : List String :=
  let lines := wrapLines text
  if 8 < lines.length then lines.take 8 else lines

/-- Success or failure of each collaborator constructor in main, listed in
construction order. The constructors whose sources are under src throw
std::runtime_error on failure; the rest are modelled from the spec: every
hardware or model collaborator may fail to initialize, and such a failure
throws out of the try block (fatal-on-failure). -/
structure InitFlags where
  audio : Bool
  display : Bool
  haptic : Bool
  power : Bool
  bluetooth : Bool
  wifi : Bool
  noise : Bool
  stt : Bool
  keyword : Bool
  storage : Bool
  deriving Repr, DecidableEq

/-- Sequential construction of the collaborators inside the try block of
main: the first failing constructor throws, with its message, and none of
the later collaborators are constructed. -/
def initAll (f : InitFlags) : Except String Unit :=
  if !f.audio then Except.error "Failed to initialize ALSA audio capture"
  else if !f.display then Except.error "Failed to initialize I2C for display"
  else if !f.haptic then Except.error "haptic feedback initialization failed"
  else if !f.power then Except.error "power manager initialization failed"
  else if !f.bluetooth then Except.error "bluetooth manager initialization failed"
  else if !f.wifi then Except.error "wifi manager initialization failed"
  else if !f.noise then Except.error "noise reduction initialization failed"
  else if !f.stt then Except.error "Failed to initialize speech-to-text engine"
  else if !f.keyword then Except.error "keyword detector initialization failed"
  else if !f.storage then Except.error "storage manager initialization failed"
  else Except.ok ()

/-- The startup in which every collaborator constructor succeeds. -/
def allInitOk : InitFlags :=
  { audio := true
    display := true
    haptic := true
    power := true
    bluetooth := true
    wifi := true
    noise := true
    stt := true
    keyword := true
    storage := true }

/-- The startup in which the audio-capture constructor throws and every
other collaborator would have succeeded. -/
def audioInitFails : InitFlags := { allInitOk with audio := false }

/-- POSIX signal number of the interrupt signal. -/
def SIGINT : Nat := 2

/-- POSIX signal number of the termination signal. -/
def SIGTERM : Nat := 15

/-- The signals for which main installs signalHandler: only
signal(SIGINT, signalHandler) is called. -/
def registeredSignals : List Nat := [SIGINT]

/-- How the process ends: a normal return from main with an exit code, or
abnormal termination by the default disposition of an unhandled fatal
signal. -/
inductive Termination where
  | exited (code : Nat)
  | killedBySignal (signum : Nat)
  deriving Repr, DecidableEq

/-- The process-level behaviour of main, given which constructors succeed
and which single fatal signal is eventually delivered. If a constructor
throws, the catch block prints the message and returns 1, and the task
threads were never started. Otherwise the five task threads are started; a
signal with a registered handler runs signalHandler, which clears g_running,
so every task loop exits, the joins return and main returns 0. A fatal
signal with no registered handler terminates the process through the C
default disposition instead (modelled from the spec: the process runs until
an interrupt or termination signal arrives). The Bool component records
whether the task threads were started. -/
def mainRun (f : InitFlags) (signum : Nat) : Termination × Bool :=
  match initAll f with
  | Except.error _ => (Termination.exited 1, false)
  | Except.ok _ =>
    if registeredSignals.contains signum then (Termination.exited 0, true)
    else (Termination.killedBySignal signum, true)

/-! Helper lemmas about the bounded history. -/

theorem tail_append_singleton {α : Type} (xs : List α) (t : α) (h : xs ≠ []) :
    (xs ++ [t]).tail = xs.tail ++ [t] := by
  cases xs with
  | nil => exact absurd rfl h
  | cons a as => rfl

theorem appendAll_concat (s : TranscriptState) (ts : List String) (t : String) :
    appendAll s (ts ++ [t]) = appendTranscription (appendAll s ts) t := by
  simp [appendAll]

theorem appendTranscription_current (s : TranscriptState) (t : String) :
    (appendTranscription s t).current = t := rfl

theorem appendTranscription_history_no_evict (s : TranscriptState) (t : String)
    (h : s.history.length < MAX_HISTORY) :
    (appendTranscription s t).history = s.history ++ [t] := by
  simp only [appendTranscription]
  rw [if_neg]
  simp only [List.length_append, List.length_singleton, List.length_cons, List.length_nil]
  omega

theorem appendTranscription_history_evict (s : TranscriptState) (t : String)
    (h : s.history.length = MAX_HISTORY) :
    (appendTranscription s t).history = s.history.tail ++ [t] := by
  have hM : MAX_HISTORY = 100 := rfl
  have hne : s.history ≠ [] := by
    intro hnil
    rw [hnil] at h
    simp only [List.length_nil] at h
    omega
  have hc : MAX_HISTORY < (s.history ++ [t]).length := by
    simp only [List.length_append, List.length_singleton, List.length_cons, List.length_nil]
    omega
  simp only [appendTranscription, if_pos hc]
  exact tail_append_singleton s.history t hne

theorem appendAll_history (texts : List String) :
    ∀ s : TranscriptState, s.history.length ≤ MAX_HISTORY →
    (appendAll s texts).history
      = (s.history ++ texts).drop (s.history.length + texts.length - MAX_HISTORY) := by
  induction texts with
  | nil =>
      intro s h
      have e : s.history.length + ([] : List String).length - MAX_HISTORY = 0 := by
        simp only [List.length_nil]
        omega
      rw [e]
      simp [appendAll]
  | cons t ts ih =>
      intro s h
      have step : appendAll s (t :: ts) = appendAll (appendTranscription s t) ts := rfl
      rw [step]
      by_cases hc : s.history.length < MAX_HISTORY
      · have h1 : (appendTranscription s t).history = s.history ++ [t] :=
          appendTranscription_history_no_evict s t hc
        have hlen : (appendTranscription s t).history.length ≤ MAX_HISTORY := by
          rw [h1]
          simp only [List.length_append, List.length_singleton, List.length_cons, List.length_nil]
          omega
        rw [ih _ hlen, h1]
        have e1 : (s.history ++ [t]) ++ ts = s.history ++ (t :: ts) := by
          simp
        have e2 : (s.history ++ [t]).length + ts.length - MAX_HISTORY
            = s.history.length + (t :: ts).length - MAX_HISTORY := by
          simp only [List.length_append, List.length_singleton, List.length_cons, List.length_nil, List.length_cons]
          omega
        rw [e1, e2]
      · have h100 : s.history.length = MAX_HISTORY := by omega
        obtain ⟨a, as, ha⟩ : ∃ a as, s.history = a :: as := by
          cases hh : s.history with
          | nil =>
              rw [hh] at h100
              simp only [List.length_nil] at h100
              have hM : MAX_HISTORY = 100 := rfl
              omega
          | cons a as => exact ⟨a, as, rfl⟩
        have hasl : as.length + 1 = MAX_HISTORY := by
          rw [ha] at h100
          simpa using h100
        have h1 : (appendTranscription s t).history = as ++ [t] := by
          rw [appendTranscription_history_evict s t h100, ha]
          simp only [List.tail_cons]
        have hlen : (appendTranscription s t).history.length ≤ MAX_HISTORY := by
          rw [h1]
          simp only [List.length_append, List.length_singleton, List.length_cons, List.length_nil]
          omega
        rw [ih _ hlen, h1]
        have eL : (as ++ [t]).length + ts.length - MAX_HISTORY = ts.length := by
          simp only [List.length_append, List.length_singleton, List.length_cons, List.length_nil]
          omega
        have eR : s.history.length + (t :: ts).length - MAX_HISTORY = ts.length + 1 := by
          simp only [List.length_cons]
          omega
        rw [eL, eR, ha]
        rw [List.cons_append, List.drop_succ_cons, List.append_assoc, List.singleton_append]

theorem runAppends_history (texts : List String) :
    (runAppends texts).history = texts.drop (texts.length - MAX_HISTORY) := by
  have h := appendAll_history texts initialState (by simp [initialState])
  simpa [runAppends, initialState] using h

theorem appendAll_current (s : TranscriptState) (texts : List String) :
    (appendAll s texts).current = (texts.getLast?).getD s.current := by
  induction texts using List.reverseRecOn with
  | nil => simp [appendAll]
  | append_singleton ts t ih =>
      rw [appendAll_concat]
      simp [appendTranscription, List.getLast?_concat]

/-- Claim C6: for every sequence of appends, the current transcription string
equals the text of the most recently appended record, or the empty string if
no record has ever been appended; since every prefix of an append sequence is
itself an append sequence, this holds at every observation point. -/
theorem current_matches_last_append (texts : List String) :
    (runAppends texts).current = (texts.getLast?).getD "" := by
  have h := appendAll_current initialState texts
  simpa [runAppends, initialState] using h

/-- Claim C2: the history never exceeds 100 records at any observation point;
an append at full capacity evicts exactly the oldest record inside the same
critical section (strict FIFO); and 150 sequential appends leave exactly
appends 51 through 150, in order. -/
theorem history_bounded_fifo :
    (∀ texts : List String, (runAppends texts).history.length ≤ 100) ∧
    (∀ (s : TranscriptState) (t : String), s.history.length = 100 →
      (appendTranscription s t).history = s.history.tail ++ [t]) ∧
    (∀ texts : List String, texts.length = 150 →
      (runAppends texts).history = texts.drop 50) := by
  refine ⟨?_, ?_, ?_⟩
  · intro texts
    rw [runAppends_history]
    have hM : MAX_HISTORY = 100 := rfl
    simp only [List.length_drop]
    omega
  · intro s t h
    exact appendTranscription_history_evict s t h
  · intro texts h
    rw [runAppends_history, h]
    rfl

/-- Witness for C2: instantiation at 150 concrete appends, and at an append
onto a concrete full history. -/
theorem history_bounded_fifo_witness :
    ((List.range 150).map toString).length = 150 ∧
    (runAppends ((List.range 150).map toString)).history
      = ((List.range 150).map toString).drop 50 ∧
    (List.replicate 100 "a").length = 100 ∧
    (appendTranscription { current := "a", history := List.replicate 100 "a" } "b").history
      = (List.replicate 100 "a").tail ++ ["b"] :=
  ⟨by simp, history_bounded_fifo.2.2 _ (by simp), by simp,
    history_bounded_fifo.2.1 _ "b" (by simp)⟩

/-! Helper lemmas about the storage task. -/

theorem storageCycle_idem (h : List String) (st : StorageState) :
    storageCycle h (storageCycle h st) = storageCycle h st := by
  simp only [storageCycle]
  by_cases hc : st.last_saved.length < h.length
  · rw [if_pos hc]
    simp
  · simp only [if_neg hc]

theorem storageCycle_fresh (h : List String) :
    storageCycle h { last_saved := [], saved := [] } = { last_saved := h, saved := h } := by
  cases h with
  | nil => rfl
  | cons a as => simp [storageCycle]

theorem sysSteps_append_map (texts : List String) :
    ∀ (ts0 : TranscriptState) (st0 : StorageState),
    (texts.map SysEvent.append).foldl sysStep { ts := ts0, store := st0 }
      = { ts := appendAll ts0 texts, store := st0 } := by
  induction texts with
  | nil => intro ts0 st0; simp [appendAll]
  | cons t ts ih =>
      intro ts0 st0
      simp only [List.map_cons, List.foldl_cons]
      have e : sysStep { ts := ts0, store := st0 } (SysEvent.append t)
          = { ts := appendTranscription ts0 t, store := st0 } := rfl
      rw [e, ih]
      rfl

theorem sysStep_persist (ts0 : TranscriptState) (st0 : StorageState) :
    sysStep { ts := ts0, store := st0 } SysEvent.persistCycle
      = { ts := ts0, store := storageCycle ts0.history st0 } := rfl

set_option maxRecDepth 10000 in
/-- Claim C1 counterexample: run 101 appends in one inter-cycle window (text
a, then 100 times text b), then a storage cycle. The bounded history evicts
the record a before the cycle runs; the length-based diff of storageThread
then saves only the 100 b records, so the appended record a is written zero
times, not exactly once, and a further cycle does not save it either. -/
theorem persistence_loses_evicted_records :
    (runSys overflowTrace).store.saved = List.replicate 100 "b" ∧
    (runSys overflowTrace).store.saved.count "a" = 0 ∧
    (runSys (overflowTrace ++ [SysEvent.persistCycle])).store.saved.count "a" = 0 := by
  refine ⟨?_, ?_, ?_⟩ <;> decide

/-- Claim C1 amended: re-running a storage cycle with no new records is a
no-op (the watermark copy and the durable store are unchanged, no duplicate
writes), and as long as the records appended between consecutive cycles fit
into the bounded history without evicting unsaved records (here: two append
windows totalling at most 100 records), the cycles together save exactly the
appended records, each exactly once, in order. When more than 100 records
arrive between two cycles, the evicted unsaved records are never written
(see the counterexample): the cycle then saves less than the unsaved suffix
of the logical record stream. -/
theorem persistence_idempotent_and_exact :
    (∀ s : SysState, sysStep (sysStep s SysEvent.persistCycle) SysEvent.persistCycle
        = sysStep s SysEvent.persistCycle) ∧
    (∀ t1 t2 : List String, t1.length + t2.length ≤ 100 →
      (runSys (t1.map SysEvent.append ++ [SysEvent.persistCycle]
        ++ t2.map SysEvent.append ++ [SysEvent.persistCycle])).store.saved = t1 ++ t2) := by
  constructor
  · intro s
    simp [sysStep, storageCycle_idem]
  · intro t1 t2 hlen
    have hM : MAX_HISTORY = 100 := rfl
    have h1 : (appendAll initialState t1).history = t1 := by
      have h := appendAll_history t1 initialState (by simp [initialState])
      have hi : initialState.history = ([] : List String) := rfl
      rw [hi] at h
      simp only [List.nil_append, List.length_nil, Nat.zero_add] at h
      rw [h]
      have e : t1.length - MAX_HISTORY = 0 := by omega
      rw [e, List.drop_zero]
    have e0 : runSys (t1.map SysEvent.append ++ [SysEvent.persistCycle]
        ++ t2.map SysEvent.append ++ [SysEvent.persistCycle])
        = sysStep ((t2.map SysEvent.append).foldl sysStep
            (sysStep ((t1.map SysEvent.append).foldl sysStep
              { ts := initialState, store := { last_saved := [], saved := [] } })
              SysEvent.persistCycle)) SysEvent.persistCycle := by
      simp [runSys, List.foldl_append]
    rw [e0, sysSteps_append_map t1 initialState { last_saved := [], saved := [] },
      sysStep_persist (appendAll initialState t1) { last_saved := [], saved := [] },
      h1, storageCycle_fresh t1,
      sysSteps_append_map t2 (appendAll initialState t1) { last_saved := t1, saved := t1 },
      sysStep_persist (appendAll (appendAll initialState t1) t2)
        { last_saved := t1, saved := t1 }]
    have h2 : (appendAll (appendAll initialState t1) t2).history = t1 ++ t2 := by
      have h := appendAll_history t2 (appendAll initialState t1) (by rw [h1]; omega)
      rw [h1] at h
      rw [h]
      have e : t1.length + t2.length - MAX_HISTORY = 0 := by omega
      rw [e, List.drop_zero]
    rw [h2]
    show (storageCycle (t1 ++ t2) { last_saved := t1, saved := t1 }).saved = t1 ++ t2
    by_cases ht2 : t2 = []
    · subst ht2
      simp [storageCycle]
    · have hlt : (0 : Nat) < t2.length := List.length_pos.mpr ht2
      have hc : (t1 : List String).length < (t1 ++ t2).length := by
        simp only [List.length_append]
        omega
      simp [storageCycle, hc, hlt, List.drop_left]

/-- Witness for C1 amended: two concrete windows of one and two appends. -/
theorem persistence_idempotent_and_exact_witness :
    (["x"] : List String).length + (["y", "z"] : List String).length ≤ 100 ∧
    (runSys ((["x"] : List String).map SysEvent.append ++ [SysEvent.persistCycle]
      ++ (["y", "z"] : List String).map SysEvent.append
      ++ [SysEvent.persistCycle])).store.saved = ["x"] ++ ["y", "z"] :=
  ⟨by decide, persistence_idempotent_and_exact.2 ["x"] ["y", "z"] (by decide)⟩

/-- Claim C3 counterexample: with WiFi enabled and connected and a single
unsynced record, a cycle whose upload delivers nothing (link failure) still
marks the record as synced, because connectivityThread calls
markTranscriptionsAsSynced unconditionally after the upload attempt. -/
theorem sync_marks_record_despite_failed_upload :
    (connectivityWifiCycle true true 0 { records := [("r1", false)] }).2 = [] ∧
    (connectivityWifiCycle true true 0 { records := [("r1", false)] }).1.records
      = [("r1", true)] := by
  refine ⟨?_, ?_⟩ <;> decide

/-- Claim C3 amended: when the long-range transport is enabled and connected,
the cycle uploads up to the whole unsynced batch and then marks every stored
record synced unconditionally, whatever part of the batch was delivered; a
failed or incompletely delivered batch is therefore not retried — after any
enabled-and-connected cycle no record remains unsynced and the next cycle
uploads nothing. When the transport is disabled or disconnected the store is
untouched and nothing is uploaded. -/
theorem sync_cycle_marks_unconditionally :
    (∀ (st : SyncStore) (delivered : Nat),
      (connectivityWifiCycle true true delivered st).1 = markTranscriptionsAsSynced st ∧
      getUnsyncedTranscriptions (connectivityWifiCycle true true delivered st).1 = [] ∧
      (∀ d2 : Nat,
        (connectivityWifiCycle true true d2 (connectivityWifiCycle true true delivered st).1).2
          = [])) ∧
    (∀ (enabled connected : Bool) (delivered : Nat) (st : SyncStore),
      (enabled && connected) = false →
      connectivityWifiCycle enabled connected delivered st = (st, [])) := by
  have hUnsynced : ∀ st : SyncStore,
      getUnsyncedTranscriptions (markTranscriptionsAsSynced st) = [] := by
    intro st
    simp [getUnsyncedTranscriptions, markTranscriptionsAsSynced, List.filter_map]
  constructor
  · intro st delivered
    refine ⟨rfl, ?_, ?_⟩
    · show getUnsyncedTranscriptions (markTranscriptionsAsSynced st) = []
      exact hUnsynced st
    · intro d2
      show ((getUnsyncedTranscriptions (markTranscriptionsAsSynced st)).take d2) = []
      rw [hUnsynced st]
      simp
  · intro enabled connected delivered st h
    simp [connectivityWifiCycle, h]

/-- Witness for C3 amended: a disconnected cycle on a concrete store. -/
theorem sync_cycle_marks_unconditionally_witness :
    ((false && true) = false) ∧
    connectivityWifiCycle false true 3 { records := [("q", false)] }
      = ({ records := [("q", false)] }, []) :=
  ⟨by decide, sync_cycle_marks_unconditionally.2 false true 3 { records := [("q", false)] }
    (by decide)⟩

/-- Claim C4 counterexample: a failed whisper_full call is reported as the
non-empty in-band string below, which the capture iteration then appends to
the shared transcript state as if it were a transcription record. -/
theorem failed_inference_pollutes_state :
    transcribe Engine.WHISPER WhisperOutcome.inferenceFailed
      = "Failed to run Whisper inference" ∧
    (audioIteration initialState
      (transcribe Engine.WHISPER WhisperOutcome.inferenceFailed)).history
      = ["Failed to run Whisper inference"] ∧
    audioIteration initialState (transcribe Engine.WHISPER WhisperOutcome.inferenceFailed)
      ≠ initialState := by
  refine ⟨?_, ?_, ?_⟩ <;> decide

/-- Claim C4 amended: an empty transcription result makes the capture
iteration a no-op on the shared transcript state (nothing appended, current
unchanged), and a transcription failure is non-fatal, the task continues;
but the failure is reported as a non-empty in-band error string, so the
iteration appends that error text to the shared state as a record rather
than leaving the state untouched. -/
theorem empty_result_is_noop_but_errors_are_appended :
    (∀ s : TranscriptState, audioIteration s "" = s) ∧
    (∀ (s : TranscriptState) (e : Engine) (w : WhisperOutcome),
      transcribe e w = "" → audioIteration s (transcribe e w) = s) ∧
    (∀ s : TranscriptState,
      audioIteration s (transcribe Engine.WHISPER WhisperOutcome.inferenceFailed)
        = appendTranscription s "Failed to run Whisper inference") := by
  refine ⟨?_, ?_, ?_⟩
  · intro s
    simp [audioIteration]
  · intro s e w h
    rw [h]
    simp [audioIteration]
  · intro s
    rfl

/-- Witness for C4 amended: a successful run with no segments yields the
empty string and the iteration leaves a concrete state unchanged. -/
theorem empty_result_is_noop_witness :
    transcribe Engine.WHISPER (WhisperOutcome.segments []) = "" ∧
    audioIteration { current := "hi", history := ["hi"] }
      (transcribe Engine.WHISPER (WhisperOutcome.segments []))
      = { current := "hi", history := ["hi"] } :=
  ⟨by decide, empty_result_is_noop_but_errors_are_appended.2.1
    { current := "hi", history := ["hi"] } Engine.WHISPER (WhisperOutcome.segments [])
    (by decide)⟩

/-- Claim C5: the published power mode follows two-state hysteresis with the
band from 0.2 to 0.3 (exactly one fifth and three tenths): from Normal (low
power off) it becomes Low exactly when a sample is below 0.2, from Low it
becomes Normal exactly when a sample is above 0.3, a sample inside the band
causes no transition, and the sample trace 0.25, 0.15, 0.35 starting from
Normal passes through Normal, then Low, then Normal. -/
theorem power_mode_hysteresis :
    LOW_THRESHOLD = 1/5 ∧ HIGH_THRESHOLD = 3/10 ∧
    (∀ level : ℚ, (powerStep false level = true ↔ level < LOW_THRESHOLD)) ∧
    (∀ level : ℚ, (powerStep true level = false ↔ HIGH_THRESHOLD < level)) ∧
    (∀ (low : Bool) (level : ℚ), LOW_THRESHOLD ≤ level → level ≤ HIGH_THRESHOLD →
      powerStep low level = low) ∧
    runPower false [(⟨1, 4, by decide, by decide⟩ : ℚ)] = false ∧
    runPower false [(⟨1, 4, by decide, by decide⟩ : ℚ),
      (⟨3, 20, by decide, by decide⟩ : ℚ)] = true ∧
    runPower false [(⟨1, 4, by decide, by decide⟩ : ℚ),
      (⟨3, 20, by decide, by decide⟩ : ℚ),
      (⟨7, 20, by decide, by decide⟩ : ℚ)] = false := by
  refine ⟨?_, ?_, ?_, ?_, ?_, ?_, ?_, ?_⟩
  · rw [LOW_THRESHOLD, Rat.mk'_eq_divInt, Rat.divInt_eq_div]
    norm_num
  · rw [HIGH_THRESHOLD, Rat.mk'_eq_divInt, Rat.divInt_eq_div]
    norm_num
  · intro level
    unfold powerStep
    split_ifs with h1 h2
    · simpa using h1
    · simp [h1]
    · simp [h1]
  · intro level
    unfold powerStep
    split_ifs with h1 h2
    · have hLH : LOW_THRESHOLD ≤ HIGH_THRESHOLD := by decide
      have hnot : ¬(HIGH_THRESHOLD < level) := by
        intro hgt
        linarith
      simp [hnot]
    · simp [h2]
    · simp [h2]
  · intro low level h1 h2
    unfold powerStep
    rw [if_neg (not_lt.mpr h1), if_neg (not_lt.mpr h2)]
  · decide
  · decide
  · decide

/-- Witness for C5: the in-band sample 0.25 leaves a Normal mode Normal. -/
theorem power_mode_hysteresis_witness :
    LOW_THRESHOLD ≤ (⟨1, 4, by decide, by decide⟩ : ℚ) ∧
    (⟨1, 4, by decide, by decide⟩ : ℚ) ≤ HIGH_THRESHOLD ∧
    powerStep false (⟨1, 4, by decide, by decide⟩ : ℚ) = false :=
  ⟨by decide, by decide,
    power_mode_hysteresis.2.2.2.2.1 false _ (by decide) (by decide)⟩

/-! Helper lemmas about display line wrapping. -/

theorem wrapStep_bound : ∀ (words : List String) (acc : List String × String),
    (∀ w ∈ words, w.length ≤ chars_per_line) →
    (∀ l ∈ acc.1, l.length ≤ chars_per_line) → acc.2.length ≤ chars_per_line →
    (∀ l ∈ (words.foldl wrapStep acc).1, l.length ≤ chars_per_line) ∧
    (words.foldl wrapStep acc).2.length ≤ chars_per_line := by
  intro words
  induction words with
  | nil =>
      intro acc _ h1 h2
      exact ⟨h1, h2⟩
  | cons w ws ih =>
      intro acc hw h1 h2
      obtain ⟨lines, cur⟩ := acc
      have hww : w.length ≤ chars_per_line := hw w (List.mem_cons_self _ _)
      have hws : ∀ x ∈ ws, x.length ≤ chars_per_line :=
        fun x hx => hw x (List.mem_cons_of_mem _ hx)
      simp only [List.foldl_cons]
      by_cases hcur : cur = ""
      · have e : wrapStep (lines, cur) w = (lines, w) := by
          simp [wrapStep, hcur]
        rw [e]
        exact ih (lines, w) hws h1 hww
      · by_cases hfit : cur.length + w.length + 1 ≤ chars_per_line
        · have e : wrapStep (lines, cur) w = (lines, cur ++ " " ++ w) := by
            simp [wrapStep, hcur, hfit]
          rw [e]
          refine ih (lines, cur ++ " " ++ w) hws h1 ?_
          simp only [String.length_append]
          have hsp : (" " : String).length = 1 := rfl
          rw [hsp]
          omega
        · have e : wrapStep (lines, cur) w = (lines ++ [cur], w) := by
            simp [wrapStep, hcur, hfit]
          rw [e]
          refine ih (lines ++ [cur], w) hws ?_ hww
          intro l hl
          rcases List.mem_append.mp hl with hmem | hmem
          · exact h1 l hmem
          · have : l = cur := by simpa using hmem
            rw [this]
            exact h2

theorem wrapLines_bound (text : String)
    (hw : ∀ w ∈ extractWords text, w.length ≤ chars_per_line) :
    ∀ l ∈ wrapLines text, l.length ≤ chars_per_line := by
  have h := wrapStep_bound (extractWords text) ([], "") hw
    (by intro l hl; simp at hl) (by simp)
  intro l hl
  simp only [wrapLines] at hl
  by_cases hc : ((extractWords text).foldl wrapStep ([], "")).2 = ""
  · rw [if_pos hc] at hl
    exact h.1 l hl
  · rw [if_neg hc] at hl
    rcases List.mem_append.mp hl with hmem | hmem
    · exact h.1 l hmem
    · have : l = ((extractWords text).foldl wrapStep ([], "")).2 := by simpa using hmem
      rw [this]
      exact h.2

/-- Claim C7 counterexample: a single 22-character word is emitted as a line
of 22 characters, exceeding the 21-character wrap width: wrapText never
breaks a word longer than the line width. -/
theorem wrap_line_exceeds_width :
    wrapText "aaaaaaaaaaaaaaaaaaaaaa" = ["aaaaaaaaaaaaaaaaaaaaaa"] ∧
    ("aaaaaaaaaaaaaaaaaaaaaa" : String).length = 22 ∧
    chars_per_line = 21 := by
  refine ⟨?_, ?_, ?_⟩ <;> decide

/-- Claim C7 amended: wrapText produces at most 8 lines and drops (does not
scroll) the lines beyond the 8th, keeping exactly the first 8 wrapped
lines; and every produced line fits in the 21-character width provided
every whitespace-delimited word of the input is at most 21 characters long
(a longer word is emitted uncut on a line of its own, exceeding the width,
as the counterexample shows). -/
theorem wrap_bounds :
    (∀ text : String, (wrapText text).length ≤ 8) ∧
    (∀ text : String, wrapText text = (wrapLines text).take 8) ∧
    (∀ text : String, (∀ w ∈ extractWords text, w.length ≤ chars_per_line) →
      ∀ line ∈ wrapText text, line.length ≤ chars_per_line) := by
  have htake : ∀ text : String, wrapText text = (wrapLines text).take 8 := by
    intro text
    simp only [wrapText]
    by_cases hc : 8 < (wrapLines text).length
    · rw [if_pos hc]
    · rw [if_neg hc, List.take_of_length_le (by omega)]
  refine ⟨?_, htake, ?_⟩
  · intro text
    rw [htake text]
    simp only [List.length_take]
    omega
  · intro text hw line hline
    rw [htake text] at hline
    exact wrapLines_bound text hw line (List.take_subset _ _ hline)

/-- Witness for C7 amended: a concrete two-word input whose words fit the
width, so every wrapped line fits the width. -/
theorem wrap_bounds_witness :
    (∀ w ∈ extractWords "hello wearable world", w.length ≤ chars_per_line) ∧
    (∀ line ∈ wrapText "hello wearable world", line.length ≤ chars_per_line) :=
  ⟨by decide, wrap_bounds.2.2 "hello wearable world" (by decide)⟩

/-- Claim C8 counterexample: with every collaborator initialized, delivery
of SIGTERM (the termination signal, number 15) reaches no registered
handler, because main registers signalHandler only for SIGINT; the process
is then killed by the default disposition instead of exiting with code 0. -/
theorem sigterm_is_not_exit_zero :
    mainRun allInitOk SIGTERM = (Termination.killedBySignal 15, true) ∧
    Termination.killedBySignal 15 ≠ Termination.exited 0 := by
  constructor
  · rfl
  · intro h
    exact Termination.noConfusion h

/-- Claim C8 amended: after a fully successful startup the process exits
with code 0 when terminated by SIGINT, the interrupt signal and the only
signal main registers a handler for; the termination signal SIGTERM has no
registered handler and kills the process by the C default disposition
rather than producing exit code 0. When any collaborator fails to
initialize, main returns 1 and the task threads are never started. -/
theorem exit_codes :
    (∀ f : InitFlags, initAll f = Except.ok () →
      mainRun f SIGINT = (Termination.exited 0, true)) ∧
    (∀ (f : InitFlags) (signum : Nat), initAll f ≠ Except.ok () →
      mainRun f signum = (Termination.exited 1, false)) := by
  constructor
  · intro f h
    simp only [mainRun, h]
    rfl
  · intro f signum h
    cases hi : initAll f with
    | error e => simp only [mainRun, hi]
    | ok u =>
        cases u
        exact absurd hi h

/-- Witness for C8 amended: the all-successful startup exits 0 on SIGINT,
and a failed audio-capture construction exits 1 with no tasks started. -/
theorem exit_codes_witness :
    initAll allInitOk = Except.ok () ∧
    mainRun allInitOk SIGINT = (Termination.exited 0, true) ∧
    initAll audioInitFails ≠ Except.ok () ∧
    mainRun audioInitFails SIGTERM = (Termination.exited 1, false) :=
  ⟨rfl,
   exit_codes.1 _ rfl,
   fun h => Except.noConfusion h,
   exit_codes.2 _ SIGTERM (fun h => Except.noConfusion h)⟩

/-- Claim C10: SpeechToText::setEngine selects the engine by
case-insensitive comparison against whisper, vosk and deepspeech: the
selection depends only on the case-folded name, the names vosk and
deepspeech (in any letter case) select exactly those engines, whisper
selects WHISPER, and every other string selects WHISPER by default; the
call never fails. -/
theorem setEngine_case_insensitive_default :
    (∀ n1 n2 : String, toLowerName n1 = toLowerName n2 →
      setEngine n1 = setEngine n2) ∧
    (∀ name : String, toLowerName name = "whisper" →
      setEngine name = Engine.WHISPER) ∧
    (∀ name : String, (setEngine name = Engine.VOSK ↔ toLowerName name = "vosk")) ∧
    (∀ name : String,
      (setEngine name = Engine.DEEPSPEECH ↔ toLowerName name = "deepspeech")) ∧
    (∀ name : String, toLowerName name ≠ "whisper" →
      toLowerName name ≠ "vosk" → toLowerName name ≠ "deepspeech" →
      setEngine name = Engine.WHISPER) := by
  have hv : ∀ l : String, (engineOfLowered l = Engine.VOSK ↔ l = "vosk") := by
    intro l
    unfold engineOfLowered
    split_ifs with h1 h2 h3
    · subst h1
      decide
    · subst h2
      decide
    · subst h3
      decide
    · constructor
      · intro hh
        exact absurd hh (by decide)
      · intro hh
        exact absurd hh h2
  have hd : ∀ l : String, (engineOfLowered l = Engine.DEEPSPEECH ↔ l = "deepspeech") := by
    intro l
    unfold engineOfLowered
    split_ifs with h1 h2 h3
    · subst h1
      decide
    · subst h2
      decide
    · subst h3
      decide
    · constructor
      · intro hh
        exact absurd hh (by decide)
      · intro hh
        exact absurd hh h3
  refine ⟨?_, ?_, ?_, ?_, ?_⟩
  · intro n1 n2 h
    unfold setEngine
    rw [h]
  · intro name h
    unfold setEngine
    rw [h]
    decide
  · intro name
    exact hv (toLowerName name)
  · intro name
    exact hd (toLowerName name)
  · intro name h1 h2 h3
    unfold setEngine engineOfLowered
    rw [if_neg h1, if_neg h2, if_neg h3]

/-- Witness for C10: concrete mixed-case and unknown engine names. -/
theorem setEngine_case_insensitive_default_witness :
    toLowerName "VoSk" = toLowerName "vosk" ∧
    setEngine "VoSk" = setEngine "vosk" ∧
    toLowerName "WHISPER" = "whisper" ∧
    setEngine "WHISPER" = Engine.WHISPER ∧
    setEngine "DeepSPEECH" = Engine.DEEPSPEECH ∧
    toLowerName "sphinx" ≠ "whisper" ∧
    toLowerName "sphinx" ≠ "vosk" ∧
    toLowerName "sphinx" ≠ "deepspeech" ∧
    setEngine "sphinx" = Engine.WHISPER :=
  ⟨by decide,
   setEngine_case_insensitive_default.1 "VoSk" "vosk" (by decide),
   by decide,
   setEngine_case_insensitive_default.2.1 "WHISPER" (by decide),
   (setEngine_case_insensitive_default.2.2.2.1 "DeepSPEECH").mpr (by decide),
   by decide, by decide, by decide,
   setEngine_case_insensitive_default.2.2.2.2 "sphinx" (by decide) (by decide) (by decide)⟩
